import Mathlib

/-!
Shallow embedding of the chainlink issue-tracking store (src/chainlink/src/db.rs
and src/chainlink/src/commands/archive.rs).

The SQLite database is modelled as a record of table contents (lists of rows);
each store method of `Database` in db.rs becomes a pure function on that record.
Timestamps (`Utc::now().to_rfc3339()`) are abstracted to a `Nat` clock passed in
as the `now` argument; rfc3339-string comparison in SQL becomes `Nat` comparison.
SQLite `PRAGMA foreign_keys = ON` is on (db.rs line 152), so an INSERT or UPDATE
whose foreign key references a missing row fails: such statements are modelled
as `Except`, with `Except.error` for the constraint failure.  `ON DELETE CASCADE`
is modelled explicitly inside `deleteIssue` / `deleteMilestone`.
Tables not touched by any property under study (sessions, time entries, labels,
comments) are omitted from the state; no modelled operation reads or writes them.
-/

namespace Chainlink

/-- A row of the `issues` table (db.rs lines 37-48). -/
structure Issue where
  id : Int
  title : String
  description : Option String
  status : String
  priority : String
  parent_id : Option Int
  created_at : Nat
  updated_at : Nat
  closed_at : Option Nat
deriving DecidableEq, Repr

/-- A row of the `dependencies` table (db.rs lines 59-65): blocker blocks blocked. -/
structure Dep where
  blocker_id : Int
  blocked_id : Int
deriving DecidableEq, Repr

/-- A row of the `relations` table (db.rs lines 97-104). -/
structure Rel where
  issue_id_1 : Int
  issue_id_2 : Int
  created_at : Nat
deriving DecidableEq, Repr

/-- A row of the `milestones` table (db.rs lines 107-114). -/
structure Milestone where
  id : Int
  name : String
  description : Option String
  status : String
  created_at : Nat
  closed_at : Option Nat
deriving DecidableEq, Repr

/-- A row of the `milestone_issues` table (db.rs lines 117-123). -/
structure MilestoneIssue where
  milestone_id : Int
  issue_id : Int
deriving DecidableEq, Repr

/-- The database state: the table contents plus the AUTOINCREMENT counters. -/
structure Database where
  issues : List Issue
  dependencies : List Dep
  relations : List Rel
  milestones : List Milestone
  milestone_issues : List MilestoneIssue
  next_issue_id : Int
  next_milestone_id : Int
deriving DecidableEq, Repr

/-- The freshly initialised database (init_schema creates empty tables). -/
def emptyDb : Database :=
  { issues := [], dependencies := [], relations := [], milestones := [],
    milestone_issues := [], next_issue_id := 1, next_milestone_id := 1 }

/-- Whether an `issues` row with the given id exists (SQL `id` is the PRIMARY KEY). -/
def hasIssue (db : Database) (i : Int) : Bool :=
  db.issues.any (fun x => x.id == i)

/-- `create_issue_with_parent` (db.rs lines 177-190): INSERT a fresh row with
status 'open', `created_at = updated_at = now`; the `parent_id` foreign key is
checked when present. -/
def createIssueWithParent (db : Database) (title : String) (description : Option String)
    (priority : String) (parent_id : Option Int) (now : Nat) :
    Except String (Database × Int) :=
  if (match parent_id with | some p => hasIssue db p | none => true) then
    Except.ok ({ db with
      issues := db.issues ++
        [{ id := db.next_issue_id, title := title, description := description,
           status := "open", priority := priority, parent_id := parent_id,
           created_at := now, updated_at := now, closed_at := none }],
      next_issue_id := db.next_issue_id + 1 }, db.next_issue_id)
  else Except.error "FOREIGN KEY constraint failed"

/-- `get_issue` (db.rs lines 216-238): `SELECT ... WHERE id = ?1` via `query_row`,
which yields the first matching row, or `None`. -/
def getIssue (db : Database) (id : Int) : Option Issue :=
  db.issues.find? (fun x => x.id == id)

/-- The per-row effect of `update_issue` (db.rs lines 303-340): only supplied
fields change, `updated_at` is always set. -/
def updateRow (id : Int) (title description priority : Option String) (now : Nat)
    (x : Issue) : Issue :=
  if x.id = id then
    { x with
      title := match title with | some t => t | none => x.title,
      description := match description with | some d => some d | none => x.description,
      priority := match priority with | some p => p | none => x.priority,
      updated_at := now }
  else x

/-- `update_issue` (db.rs lines 303-340): `UPDATE issues SET ... WHERE id = ?`;
the returned Bool is `rows > 0`. -/
def updateIssue (db : Database) (id : Int) (title description priority : Option String)
    (now : Nat) : Database × Bool :=
  ({ db with issues := db.issues.map (updateRow id title description priority now) },
   db.issues.any (fun x => x.id == id))

/-- The per-row effect of `close_issue` (db.rs lines 342-349). -/
def closeRow (id : Int) (now : Nat) (x : Issue) : Issue :=
  if x.id = id then { x with status := "closed", closed_at := some now, updated_at := now }
  else x

/-- `close_issue` (db.rs lines 342-349): sets status 'closed', `closed_at`,
`updated_at` on the matching row; no status precondition in the SQL. -/
def closeIssue (db : Database) (id : Int) (now : Nat) : Database × Bool :=
  ({ db with issues := db.issues.map (closeRow id now) },
   db.issues.any (fun x => x.id == id))

/-- The per-row effect of `reopen_issue` (db.rs lines 351-358). -/
def reopenRow (id : Int) (now : Nat) (x : Issue) : Issue :=
  if x.id = id then { x with status := "open", closed_at := none, updated_at := now }
  else x

/-- `reopen_issue` (db.rs lines 351-358): sets status 'open', clears `closed_at`
on the matching row; the SQL has no condition on the current status. -/
def reopenIssue (db : Database) (id : Int) (now : Nat) : Database × Bool :=
  ({ db with issues := db.issues.map (reopenRow id now) },
   db.issues.any (fun x => x.id == id))

/-- One round of SQLite ON DELETE CASCADE on `issues.parent_id`: ids of rows
whose parent is already dead join the dead set. -/
def deadStep (issues : List Issue) (dead : List Int) : List Int :=
  dead ++ (issues.filter (fun x =>
    (match x.parent_id with
     | some p => decide (p ∈ dead) && !(decide (x.id ∈ dead))
     | none => false))).map (fun x => x.id)

/-- Iterate `deadStep` to a fixpoint (at most one new id per round, so
`issues.length` rounds suffice). -/
def deadIter (issues : List Issue) : Nat → List Int → List Int
  | 0, dead => dead
  | n + 1, dead => deadIter issues n (deadStep issues dead)

/-- `delete_issue` (db.rs lines 360-365): `DELETE FROM issues WHERE id = ?1`.
SQLite cascades: child issues (FK on `parent_id`, recursively) die with it, and
every `dependencies`, `relations` and `milestone_issues` row whose issue
foreign key is a dead row is removed. -/
def deleteIssue (db : Database) (id : Int) : Database × Bool :=
  if hasIssue db id then
    let dead := deadIter db.issues db.issues.length [id]
    ({ db with
       issues := db.issues.filter (fun x => !(decide (x.id ∈ dead))),
       dependencies := db.dependencies.filter
         (fun e => !(decide (e.blocker_id ∈ dead)) && !(decide (e.blocked_id ∈ dead))),
       relations := db.relations.filter
         (fun r => !(decide (r.issue_id_1 ∈ dead)) && !(decide (r.issue_id_2 ∈ dead))),
       milestone_issues := db.milestone_issues.filter
         (fun m => !(decide (m.issue_id ∈ dead))) },
     true)
  else (db, false)

/-- `add_dependency(blocked_id, blocker_id)` (db.rs lines 422-428):
`INSERT OR IGNORE INTO dependencies (blocker_id, blocked_id)`.  The OR IGNORE
swallows the PRIMARY KEY conflict (returning false); it does not swallow a
FOREIGN KEY violation, which aborts the statement with an error. -/
def addDependency (db : Database) (blocked_id blocker_id : Int) :
    Except String (Database × Bool) :=
  if hasIssue db blocker_id && hasIssue db blocked_id then
    if db.dependencies.any (fun e => e.blocker_id == blocker_id && e.blocked_id == blocked_id) then
      Except.ok (db, false)
    else
      Except.ok ({ db with dependencies :=
        db.dependencies ++ [{ blocker_id := blocker_id, blocked_id := blocked_id }] }, true)
  else Except.error "FOREIGN KEY constraint failed"

/-- `remove_dependency` (db.rs lines 430-436). -/
def removeDependency (db : Database) (blocked_id blocker_id : Int) : Database × Bool :=
  let keep := db.dependencies.filter
    (fun e => !(e.blocker_id == blocker_id && e.blocked_id == blocked_id))
  ({ db with dependencies := keep },
   db.dependencies.any (fun e => e.blocker_id == blocker_id && e.blocked_id == blocked_id))

/-- `get_blockers` (db.rs lines 438-446): `SELECT blocker_id FROM dependencies
WHERE blocked_id = ?1` (no ORDER BY; table order). -/
def getBlockers (db : Database) (issue_id : Int) : List Int :=
  (db.dependencies.filter (fun e => e.blocked_id == issue_id)).map (fun e => e.blocker_id)

/-- `get_blocking` (db.rs lines 448-456). -/
def getBlocking (db : Database) (issue_id : Int) : List Int :=
  (db.dependencies.filter (fun e => e.blocker_id == issue_id)).map (fun e => e.blocked_id)

/-- The ordering used by `ORDER BY i.id` over issue rows. -/
def idLe (a b : Issue) : Prop := a.id ≤ b.id

instance : DecidableRel idLe := fun a b => inferInstanceAs (Decidable (a.id ≤ b.id))

instance : IsTotal Issue idLe := ⟨fun a b => Int.le_total a.id b.id⟩

instance : IsTrans Issue idLe := ⟨fun _ _ _ h1 h2 => le_trans h1 h2⟩

/-- The WHERE clause of `list_blocked_issues` (db.rs lines 458-487), per issue
row: open and joined to some dependency row whose blocker row is open.  DISTINCT
collapses the join multiplicity, leaving exactly the rows satisfying this. -/
def blockedPred (db : Database) (i : Issue) : Bool :=
  i.status == "open" &&
    db.dependencies.any (fun e => e.blocked_id == i.id &&
      db.issues.any (fun b => b.id == e.blocker_id && b.status == "open"))

/-- `list_blocked_issues` (db.rs lines 458-487): SELECT DISTINCT open issues
joined to an open blocker, ORDER BY i.id. -/
def listBlockedIssues (db : Database) : List Issue :=
  List.insertionSort idLe (db.issues.filter (blockedPred db))

/-- The WHERE clause of `list_ready_issues` (db.rs lines 489-521), per issue
row: open and NOT EXISTS a dependency row pointing at it whose blocker is open. -/
def readyPred (db : Database) (i : Issue) : Bool :=
  i.status == "open" &&
    !(db.dependencies.any (fun e => e.blocked_id == i.id &&
        db.issues.any (fun b => b.id == e.blocker_id && b.status == "open")))

/-- `list_ready_issues` (db.rs lines 489-521). -/
def listReadyIssues (db : Database) : List Issue :=
  List.insertionSort idLe (db.issues.filter (readyPred db))

/-- The insert step of `add_relation` (db.rs lines 700-705) after the pair has
been put smaller id first: `INSERT OR IGNORE INTO relations` with its FOREIGN
KEY checks. -/
def addRelationCanon (db : Database) (a b : Int) (now : Nat) :
    Except String (Database × Bool) :=
  if hasIssue db a && hasIssue db b then
    if db.relations.any (fun r => r.issue_id_1 == a && r.issue_id_2 == b) then
      Except.ok (db, false)
    else
      Except.ok ({ db with relations :=
        db.relations ++ [{ issue_id_1 := a, issue_id_2 := b, created_at := now }] }, true)
  else Except.error "FOREIGN KEY constraint failed"

/-- `add_relation` (db.rs lines 690-706): bails on a self-relation before any
SQL, else canonicalizes the pair smaller id first and inserts. -/
def addRelation (db : Database) (issue_id_1 issue_id_2 : Int) (now : Nat) :
    Except String (Database × Bool) :=
  if issue_id_1 = issue_id_2 then
    Except.error "Cannot relate an issue to itself"
  else if issue_id_1 < issue_id_2 then
    addRelationCanon db issue_id_1 issue_id_2 now
  else
    addRelationCanon db issue_id_2 issue_id_1 now

/-- `remove_relation` (db.rs lines 708-719). -/
def removeRelation (db : Database) (issue_id_1 issue_id_2 : Int) : Database × Bool :=
  let a := if issue_id_1 < issue_id_2 then issue_id_1 else issue_id_2
  let b := if issue_id_1 < issue_id_2 then issue_id_2 else issue_id_1
  let keep := db.relations.filter (fun r => !(r.issue_id_1 == a && r.issue_id_2 == b))
  ({ db with relations := keep },
   db.relations.any (fun r => r.issue_id_1 == a && r.issue_id_2 == b))

/-- `update_parent` (db.rs lines 721-728): `UPDATE issues SET parent_id = ?`.
The FOREIGN KEY on the new parent is checked only when a row actually updates. -/
def updateParent (db : Database) (id : Int) (parent_id : Option Int) (now : Nat) :
    Except String (Database × Bool) :=
  if hasIssue db id then
    if (match parent_id with | some p => hasIssue db p | none => true) then
      Except.ok ({ db with issues := db.issues.map (fun x =>
        if x.id = id then { x with parent_id := parent_id, updated_at := now } else x) }, true)
    else Except.error "FOREIGN KEY constraint failed"
  else Except.ok (db, false)

/-- `get_related_issues` (db.rs lines 730-761): issues whose id is in the UNION
of the two directions of the relation, ORDER BY i.id. -/
def getRelatedIssues (db : Database) (issue_id : Int) : List Issue :=
  List.insertionSort idLe (db.issues.filter (fun i =>
    db.relations.any (fun r => r.issue_id_1 == issue_id && r.issue_id_2 == i.id) ||
    db.relations.any (fun r => r.issue_id_2 == issue_id && r.issue_id_1 == i.id)))

/-- `create_milestone` (db.rs lines 764-771). -/
def createMilestone (db : Database) (name : String) (description : Option String)
    (now : Nat) : Database × Int :=
  let row : Milestone :=
    { id := db.next_milestone_id, name := name, description := description,
      status := "open", created_at := now, closed_at := none }
  ({ db with milestones := db.milestones ++ [row],
             next_milestone_id := db.next_milestone_id + 1 }, db.next_milestone_id)

/-- Whether a `milestones` row with the given id exists. -/
def hasMilestone (db : Database) (i : Int) : Bool :=
  db.milestones.any (fun m => m.id == i)

/-- `add_issue_to_milestone` (db.rs lines 822-828): `INSERT OR IGNORE` with
FOREIGN KEYs on both `milestones` and `issues`. -/
def addIssueToMilestone (db : Database) (milestone_id issue_id : Int) :
    Except String (Database × Bool) :=
  if hasMilestone db milestone_id && hasIssue db issue_id then
    if db.milestone_issues.any
        (fun m => m.milestone_id == milestone_id && m.issue_id == issue_id) then
      Except.ok (db, false)
    else
      Except.ok ({ db with milestone_issues := db.milestone_issues ++
        [{ milestone_id := milestone_id, issue_id := issue_id }] }, true)
  else Except.error "FOREIGN KEY constraint failed"

/-- `remove_issue_from_milestone` (db.rs lines 830-836). -/
def removeIssueFromMilestone (db : Database) (milestone_id issue_id : Int) :
    Database × Bool :=
  let keep := db.milestone_issues.filter
    (fun m => !(m.milestone_id == milestone_id && m.issue_id == issue_id))
  ({ db with milestone_issues := keep },
   db.milestone_issues.any (fun m => m.milestone_id == milestone_id && m.issue_id == issue_id))

/-- `close_milestone` (db.rs lines 868-875). -/
def closeMilestone (db : Database) (id : Int) (now : Nat) : Database × Bool :=
  ({ db with milestones := db.milestones.map (fun m =>
      if m.id = id then { m with status := "closed", closed_at := some now } else m) },
   db.milestones.any (fun m => m.id == id))

/-- `delete_milestone` (db.rs lines 877-882): cascade removes its
`milestone_issues` rows. -/
def deleteMilestone (db : Database) (id : Int) : Database × Bool :=
  ({ db with
     milestones := db.milestones.filter (fun m => !(m.id == id)),
     milestone_issues := db.milestone_issues.filter (fun m => !(m.milestone_id == id)) },
   db.milestones.any (fun m => m.id == id))

/-- The per-row effect of `archive_issue` (db.rs lines 912-919): the WHERE
clause requires both the id and status 'closed'. -/
def archiveRow (id : Int) (now : Nat) (x : Issue) : Issue :=
  if x.id = id ∧ x.status = "closed" then { x with status := "archived", updated_at := now }
  else x

/-- `archive_issue` (db.rs lines 912-919): `UPDATE ... WHERE id = ?2 AND
status = 'closed'`; returns whether a row matched. -/
def archiveIssue (db : Database) (id : Int) (now : Nat) : Database × Bool :=
  ({ db with issues := db.issues.map (archiveRow id now) },
   db.issues.any (fun x => x.id == id && x.status == "closed"))

/-- The per-row effect of `unarchive_issue` (db.rs lines 921-928). -/
def unarchiveRow (id : Int) (now : Nat) (x : Issue) : Issue :=
  if x.id = id ∧ x.status = "archived" then { x with status := "closed", updated_at := now }
  else x

/-- `unarchive_issue` (db.rs lines 921-928): `UPDATE ... SET status = 'closed'
... WHERE id = ?2 AND status = 'archived'`. -/
def unarchiveIssue (db : Database) (id : Int) (now : Nat) : Database × Bool :=
  ({ db with issues := db.issues.map (unarchiveRow id now) },
   db.issues.any (fun x => x.id == id && x.status == "archived"))

/-- The per-row effect of `archive_older_than` (db.rs lines 954-965): archives
closed rows whose `closed_at` is before the cutoff. -/
def archiveOlderRow (cutoff : Nat) (now : Nat) (x : Issue) : Issue :=
  if x.status == "closed" &&
      (match x.closed_at with | some c => decide (c < cutoff) | none => false) then
    { x with status := "archived", updated_at := now }
  else x

/-- `archive_older_than` (db.rs lines 954-965), with the cutoff instant passed
in explicitly. -/
def archiveOlderThan (db : Database) (cutoff : Nat) (now : Nat) : Database × Nat :=
  ({ db with issues := db.issues.map (archiveOlderRow cutoff now) },
   (db.issues.filter (fun x => x.status == "closed" &&
      (match x.closed_at with | some c => decide (c < cutoff) | none => false))).length)

/-- The `archive` command (commands/archive.rs lines 5-23): bails when the
issue is absent or its status is not 'closed', else calls `archive_issue`. -/
def archiveCmd (db : Database) (id : Int) (now : Nat) : Except String (Database × Bool) :=
  match getIssue db id with
  | none => Except.error "Issue not found"
  | some issue =>
      if issue.status ≠ "closed" then Except.error "Can only archive closed issues"
      else Except.ok (archiveIssue db id now)

/-- Databases reachable from the fresh store through the modelled operations. -/
inductive Reachable : Database → Prop
  | empty : Reachable emptyDb
  | create {db db' t d p pid now i} : Reachable db →
      createIssueWithParent db t d p pid now = Except.ok (db', i) → Reachable db'
  | update {db id t d p now} : Reachable db → Reachable (updateIssue db id t d p now).1
  | close {db id now} : Reachable db → Reachable (closeIssue db id now).1
  | reopen {db id now} : Reachable db → Reachable (reopenIssue db id now).1
  | delete {db id} : Reachable db → Reachable (deleteIssue db id).1
  | addDep {db db' b a r} : Reachable db →
      addDependency db b a = Except.ok (db', r) → Reachable db'
  | remDep {db b a} : Reachable db → Reachable (removeDependency db b a).1
  | addRel {db db' i j now r} : Reachable db →
      addRelation db i j now = Except.ok (db', r) → Reachable db'
  | remRel {db i j} : Reachable db → Reachable (removeRelation db i j).1
  | setParent {db db' id pid now r} : Reachable db →
      updateParent db id pid now = Except.ok (db', r) → Reachable db'
  | mkMilestone {db name d now} : Reachable db → Reachable (createMilestone db name d now).1
  | closeMs {db id now} : Reachable db → Reachable (closeMilestone db id now).1
  | deleteMs {db id} : Reachable db → Reachable (deleteMilestone db id).1
  | addMsIssue {db db' m i r} : Reachable db →
      addIssueToMilestone db m i = Except.ok (db', r) → Reachable db'
  | remMsIssue {db m i} : Reachable db → Reachable (removeIssueFromMilestone db m i).1
  | archive {db id now} : Reachable db → Reachable (archiveIssue db id now).1
  | unarchive {db id now} : Reachable db → Reachable (unarchiveIssue db id now).1
  | archiveOlder {db cutoff now} : Reachable db → Reachable (archiveOlderThan db cutoff now).1

/-- The EXISTS subquery shared by `list_blocked_issues` and `list_ready_issues`
(db.rs lines 463-465 and 495-499), as a proposition: some dependency row points
at `i` and its blocker row is open. -/
def HasOpenBlocker (db : Database) (i : Issue) : Prop :=
  ∃ e ∈ db.dependencies, e.blocked_id = i.id ∧
    ∃ b ∈ db.issues, b.id = e.blocker_id ∧ b.status = "open"

/-- Referential integrity of the edge tables: every dependency or relation row
points at existing issue rows. -/
def EdgesOK (db : Database) : Prop :=
  (∀ e ∈ db.dependencies, hasIssue db e.blocker_id = true ∧ hasIssue db e.blocked_id = true) ∧
  (∀ r ∈ db.relations, hasIssue db r.issue_id_1 = true ∧ hasIssue db r.issue_id_2 = true) ∧
  (∀ m ∈ db.milestone_issues, hasIssue db m.issue_id = true)

/-- A bare issue row used to build concrete test databases. -/
def mkIssue (i : Int) (st : String) : Issue :=
  { id := i, title := "t", description := none, status := st, priority := "medium",
    parent_id := none, created_at := 0, updated_at := 0, closed_at := none }

/-- Concrete database with two open issues and no edges. -/
def exOpen2 : Database :=
  { emptyDb with issues := [mkIssue 1 "open", mkIssue 2 "open"], next_issue_id := 3 }

/-- Concrete database with two open issues where issue 1 blocks issue 2. -/
def exDep : Database :=
  { emptyDb with issues := [mkIssue 1 "open", mkIssue 2 "open"],
                 dependencies := [{ blocker_id := 1, blocked_id := 2 }],
                 next_issue_id := 3 }

/-- The state produced by `create_issue` on the fresh store. -/
def exDb1 : Database :=
  { issues := [{ id := 1, title := "task", description := none, status := "open",
                 priority := "medium", parent_id := none, created_at := 0, updated_at := 0,
                 closed_at := none }],
    dependencies := [], relations := [], milestones := [], milestone_issues := [],
    next_issue_id := 2, next_milestone_id := 1 }

/-- `exDb1` after `close_issue 1`. -/
def exDb2 : Database := (closeIssue exDb1 1 1).1

/-- `exDb2` after `archive_issue 1`: a reachable state holding an archived issue. -/
def exDb3 : Database := (archiveIssue exDb2 1 2).1

/-- The state after a successful relation insert (the record built inside
`addRelation`), named for use in the statements about it. -/
def insertRel (db : Database) (u v : Int) (now : Nat) : Database :=
  { db with relations := db.relations ++
      [{ issue_id_1 := u, issue_id_2 := v, created_at := now }] }

/-- The archived row held by `exDb3`. -/
def exArchRow : Issue :=
  { id := 1, title := "task", description := none, status := "archived",
    priority := "medium", parent_id := none, created_at := 0, updated_at := 2,
    closed_at := some 1 }

theorem any_id_map (l : List Issue) (f : Issue → Issue) (hf : ∀ x, (f x).id = x.id)
    (i : Int) : (l.map f).any (fun x => x.id == i) = l.any (fun x => x.id == i) := by
  induction l with
  | nil => rfl
  | cons x xs ih => simp [List.any_cons, hf, ih]

theorem find_id_map (l : List Issue) (f : Issue → Issue) (hf : ∀ x, (f x).id = x.id)
    (i : Int) :
    (l.map f).find? (fun x => x.id == i) = (l.find? (fun x => x.id == i)).map f := by
  induction l with
  | nil => rfl
  | cons x xs ih =>
    by_cases h : x.id = i
    · simp [List.find?, hf, h]
    · have h1 : ((f x).id == i) = false := by simp [hf, h]
      have h2 : (x.id == i) = false := by simp [h]
      simp only [List.map, List.find?, h1, h2]
      exact ih

theorem blockedPred_iff (db : Database) (i : Issue) :
    blockedPred db i = true ↔ i.status = "open" ∧ HasOpenBlocker db i := by
  simp [blockedPred, HasOpenBlocker, List.any_eq_true, Bool.and_eq_true, beq_iff_eq,
    and_assoc]

theorem readyPred_iff (db : Database) (i : Issue) :
    readyPred db i = true ↔ i.status = "open" ∧ ¬ HasOpenBlocker db i := by
  simp [readyPred, HasOpenBlocker, List.any_eq_true, Bool.and_eq_true, beq_iff_eq,
    and_assoc]

theorem mem_listBlockedIssues (db : Database) (i : Issue) :
    i ∈ listBlockedIssues db ↔ i ∈ db.issues ∧ i.status = "open" ∧ HasOpenBlocker db i := by
  rw [listBlockedIssues, List.mem_insertionSort, List.mem_filter, blockedPred_iff]

theorem mem_listReadyIssues (db : Database) (i : Issue) :
    i ∈ listReadyIssues db ↔ i ∈ db.issues ∧ i.status = "open" ∧ ¬ HasOpenBlocker db i := by
  rw [listReadyIssues, List.mem_insertionSort, List.mem_filter, readyPred_iff]

/-- C1: `list_ready_issues` returns exactly the open issues with no open direct
blocker (an issue with zero dependency rows qualifies, and closed or archived
blockers do not count), ordered by issue id ascending; closed and archived
issues never appear. -/
theorem list_ready_issues_spec (db : Database) :
    (∀ i : Issue, i ∈ listReadyIssues db ↔
        i ∈ db.issues ∧ i.status = "open" ∧ ¬ HasOpenBlocker db i) ∧
    List.Sorted idLe (listReadyIssues db) ∧
    (∀ i ∈ listReadyIssues db, i.status ≠ "closed" ∧ i.status ≠ "archived") := by
  refine ⟨fun i => mem_listReadyIssues db i, List.sorted_insertionSort idLe _, ?_⟩
  intro i hi
  have h := (mem_listReadyIssues db i).1 hi
  constructor
  · intro hc; rw [h.2.1] at hc; exact absurd hc (by decide)
  · intro hc; rw [h.2.1] at hc; exact absurd hc (by decide)

/-- C7: `add_relation(x, x)` reports an error for every `x`, whatever the
database contents (in particular whether or not issue `x` exists), and never
produces a new database state. -/
theorem add_relation_self_loop_rejected (db : Database) (x : Int) (now : Nat) :
    addRelation db x x now = Except.error "Cannot relate an issue to itself" ∧
    ∀ (db1 : Database) (r : Bool), addRelation db x x now ≠ Except.ok (db1, r) := by
  constructor
  · simp [addRelation]
  · intro db1 r h
    rw [addRelation, if_pos rfl] at h
    exact Except.noConfusion h

/-- C2: `list_blocked_issues` returns exactly the open issues with at least one
open direct blocker, each exactly once, ordered by issue id ascending, and for
every open issue membership in blocked is the negation of membership in ready. -/
theorem list_blocked_issues_spec (db : Database)
    (h : (db.issues.map Issue.id).Nodup) :
    (∀ i : Issue, i ∈ listBlockedIssues db ↔
        i ∈ db.issues ∧ i.status = "open" ∧ HasOpenBlocker db i) ∧
    List.Sorted idLe (listBlockedIssues db) ∧
    (∀ i ∈ listBlockedIssues db, (listBlockedIssues db).count i = 1) ∧
    (∀ i ∈ db.issues, i.status = "open" →
        (i ∈ listBlockedIssues db ↔ i ∉ listReadyIssues db)) := by
  refine ⟨fun i => mem_listBlockedIssues db i, List.sorted_insertionSort idLe _, ?_, ?_⟩
  · intro i hi
    have hperm := List.perm_insertionSort idLe (db.issues.filter (blockedPred db))
    have hnd : (db.issues.filter (blockedPred db)).Nodup :=
      List.Nodup.filter _ (List.Nodup.of_map _ h)
    have hmemf : i ∈ db.issues.filter (blockedPred db) := hperm.mem_iff.mp hi
    rw [listBlockedIssues, hperm.count_eq]
    exact List.count_eq_one_of_mem hnd hmemf
  · intro i hmem hopen
    rw [mem_listBlockedIssues, mem_listReadyIssues]
    by_cases hH : HasOpenBlocker db i
    · simp [hmem, hopen, hH]
    · simp [hmem, hopen, hH]

/-- Witness for C2 on a concrete two-issue database with one dependency edge. -/
theorem list_blocked_issues_spec_witness :
    ((exDep.issues.map Issue.id).Nodup) ∧
    ((∀ i : Issue, i ∈ listBlockedIssues exDep ↔
        i ∈ exDep.issues ∧ i.status = "open" ∧ HasOpenBlocker exDep i) ∧
    List.Sorted idLe (listBlockedIssues exDep) ∧
    (∀ i ∈ listBlockedIssues exDep, (listBlockedIssues exDep).count i = 1) ∧
    (∀ i ∈ exDep.issues, i.status = "open" →
        (i ∈ listBlockedIssues exDep ↔ i ∉ listReadyIssues exDep))) :=
  ⟨by decide, list_blocked_issues_spec exDep (by decide)⟩

/-- C4: for issues `a` (blocker) and `b` (blocked) with the edge absent, the
first `add_dependency(b, a)` returns true, the repeated call returns false
without error and without changing the state, and afterwards `get_blockers(b)`
contains `a` exactly once. -/
theorem add_dependency_idempotent (db : Database) (a b : Int)
    (ha : hasIssue db a = true) (hb : hasIssue db b = true)
    (habs : ∀ e ∈ db.dependencies, ¬(e.blocker_id = a ∧ e.blocked_id = b)) :
    ∃ db1 : Database,
      addDependency db b a = Except.ok (db1, true) ∧
      addDependency db1 b a = Except.ok (db1, false) ∧
      (getBlockers db1 b).count a = 1 := by
  have hconf : db.dependencies.any (fun e => e.blocker_id == a && e.blocked_id == b) = false := by
    by_contra hc
    rw [Bool.not_eq_false, List.any_eq_true] at hc
    obtain ⟨e, he, hpe⟩ := hc
    rw [Bool.and_eq_true, beq_iff_eq, beq_iff_eq] at hpe
    exact habs e he hpe
  have h1 : addDependency db b a = Except.ok
      ({ db with dependencies := db.dependencies ++ [{ blocker_id := a, blocked_id := b }] },
       true) := by
    simp [addDependency, ha, hb, hconf]
  refine ⟨_, h1, ?_, ?_⟩
  · have ha1 : hasIssue { db with dependencies :=
        db.dependencies ++ [{ blocker_id := a, blocked_id := b }] } a = true := ha
    have hb1 : hasIssue { db with dependencies :=
        db.dependencies ++ [{ blocker_id := a, blocked_id := b }] } b = true := hb
    have hconf1 : ({ db with dependencies :=
        db.dependencies ++ [{ blocker_id := a, blocked_id := b }] } :
          Database).dependencies.any
        (fun e => e.blocker_id == a && e.blocked_id == b) = true := by
      simp [List.any_append]
    simp [addDependency, ha1, hb1, hconf1]
  · have hcount0 : (getBlockers db b).count a = 0 := by
      rw [List.count_eq_zero]
      intro hmem
      obtain ⟨e, he, hea⟩ := List.mem_map.mp hmem
      have hef := List.mem_filter.mp he
      exact habs e hef.1 ⟨hea, by simpa using hef.2⟩
    have hsplit : getBlockers { db with dependencies :=
        db.dependencies ++ [{ blocker_id := a, blocked_id := b }] } b =
        getBlockers db b ++ [a] := by
      simp [getBlockers, List.filter_append]
    rw [hsplit, List.count_append, hcount0]
    simp

/-- Witness for C4 on the concrete two-issue database with no edges. -/
theorem add_dependency_idempotent_witness :
    (hasIssue exOpen2 1 = true ∧ hasIssue exOpen2 2 = true ∧
      (∀ e ∈ exOpen2.dependencies, ¬(e.blocker_id = 1 ∧ e.blocked_id = 2))) ∧
    (∃ db1 : Database,
      addDependency exOpen2 2 1 = Except.ok (db1, true) ∧
      addDependency db1 2 1 = Except.ok (db1, false) ∧
      (getBlockers db1 2).count 1 = 1) :=
  ⟨⟨by decide, by decide, by decide⟩,
   add_dependency_idempotent exOpen2 1 2 (by decide) (by decide) (by decide)⟩

/-- C10: a dependency self-loop is accepted: `add_dependency(x, x)` succeeds
(returning true when the edge is new), and as long as the self-edge is present
and issue `x` is open, `x` is listed as blocked and never as ready. -/
theorem dependency_self_loop_accepted (db : Database) (x : Int)
    (hx : hasIssue db x = true)
    (habs : ∀ e ∈ db.dependencies, ¬(e.blocker_id = x ∧ e.blocked_id = x)) :
    (∃ db1 : Database, addDependency db x x = Except.ok (db1, true) ∧
      ∀ j ∈ db1.issues, j.id = x → j.status = "open" →
        j ∈ listBlockedIssues db1 ∧ j ∉ listReadyIssues db1) ∧
    (∀ (db2 : Database) (j : Issue), j ∈ db2.issues → j.id = x → j.status = "open" →
      (∃ e ∈ db2.dependencies, e.blocker_id = x ∧ e.blocked_id = x) →
      j ∈ listBlockedIssues db2 ∧ j ∉ listReadyIssues db2) := by
  have hgen : ∀ (db2 : Database) (j : Issue), j ∈ db2.issues → j.id = x →
      j.status = "open" →
      (∃ e ∈ db2.dependencies, e.blocker_id = x ∧ e.blocked_id = x) →
      j ∈ listBlockedIssues db2 ∧ j ∉ listReadyIssues db2 := by
    intro db2 j hj hjx hjopen hedge
    obtain ⟨e, he, hex1, hex2⟩ := hedge
    have hH : HasOpenBlocker db2 j :=
      ⟨e, he, by rw [hex2, hjx], ⟨j, hj, by rw [hex1, hjx], hjopen⟩⟩
    constructor
    · exact (mem_listBlockedIssues db2 j).2 ⟨hj, hjopen, hH⟩
    · intro hr
      exact ((mem_listReadyIssues db2 j).1 hr).2.2 hH
  refine ⟨?_, hgen⟩
  have hconf : db.dependencies.any (fun e => e.blocker_id == x && e.blocked_id == x) = false := by
    by_contra hc
    rw [Bool.not_eq_false, List.any_eq_true] at hc
    obtain ⟨e, he, hpe⟩ := hc
    rw [Bool.and_eq_true, beq_iff_eq, beq_iff_eq] at hpe
    exact habs e he hpe
  have h1 : addDependency db x x = Except.ok
      ({ db with dependencies := db.dependencies ++ [{ blocker_id := x, blocked_id := x }] },
       true) := by
    simp [addDependency, hx, hconf]
  refine ⟨_, h1, ?_⟩
  intro j hj hjx hjopen
  exact hgen _ j hj hjx hjopen
    ⟨{ blocker_id := x, blocked_id := x }, by simp, rfl, rfl⟩

/-- Witness for C10 on the concrete two-issue database with no edges. -/
theorem dependency_self_loop_accepted_witness :
    (hasIssue exOpen2 1 = true ∧
      (∀ e ∈ exOpen2.dependencies, ¬(e.blocker_id = 1 ∧ e.blocked_id = 1))) ∧
    ((∃ db1 : Database, addDependency exOpen2 1 1 = Except.ok (db1, true) ∧
      ∀ j ∈ db1.issues, j.id = 1 → j.status = "open" →
        j ∈ listBlockedIssues db1 ∧ j ∉ listReadyIssues db1) ∧
    (∀ (db2 : Database) (j : Issue), j ∈ db2.issues → j.id = 1 → j.status = "open" →
      (∃ e ∈ db2.dependencies, e.blocker_id = 1 ∧ e.blocked_id = 1) →
      j ∈ listBlockedIssues db2 ∧ j ∉ listReadyIssues db2)) :=
  ⟨⟨by decide, by decide⟩,
   dependency_self_loop_accepted exOpen2 1 (by decide) (by decide)⟩

theorem updateRow_id (id : Int) (t d p : Option String) (now : Nat) (x : Issue) :
    (updateRow id t d p now x).id = x.id := by
  unfold updateRow; split <;> rfl

theorem closeRow_id (id : Int) (now : Nat) (x : Issue) : (closeRow id now x).id = x.id := by
  rw [closeRow]; split <;> rfl

theorem reopenRow_id (id : Int) (now : Nat) (x : Issue) : (reopenRow id now x).id = x.id := by
  rw [reopenRow]; split <;> rfl

theorem archiveRow_id (id : Int) (now : Nat) (x : Issue) : (archiveRow id now x).id = x.id := by
  rw [archiveRow]; split <;> rfl

theorem unarchiveRow_id (id : Int) (now : Nat) (x : Issue) :
    (unarchiveRow id now x).id = x.id := by
  rw [unarchiveRow]; split <;> rfl

theorem archiveOlderRow_id (cutoff now : Nat) (x : Issue) :
    (archiveOlderRow cutoff now x).id = x.id := by
  rw [archiveOlderRow]; split <;> rfl

/-- C6: archiving succeeds only from status closed — the `archive` command bails
on any non-closed issue, `archive_issue` reports success exactly when a closed
row with that id exists and changes nothing otherwise — and `unarchive_issue`
on an archived issue sets its status to closed, never to open. -/
theorem archive_only_closed (db : Database) (id : Int) (now : Nat) (i : Issue)
    (hget : getIssue db id = some i) :
    (i.status ≠ "closed" → archiveCmd db id now = Except.error "Can only archive closed issues") ∧
    ((archiveIssue db id now).2 = true ↔ ∃ x ∈ db.issues, x.id = id ∧ x.status = "closed") ∧
    ((¬ ∃ x ∈ db.issues, x.id = id ∧ x.status = "closed") → (archiveIssue db id now).1 = db) ∧
    (i.status = "archived" →
      (unarchiveIssue db id now).2 = true ∧
      getIssue ((unarchiveIssue db id now).1) id =
        some { i with status := "closed", updated_at := now }) := by
  have hmem : i ∈ db.issues := List.mem_of_find?_eq_some hget
  have hid : i.id = id := by
    have := List.find?_some hget
    rwa [beq_iff_eq] at this
  refine ⟨?_, ?_, ?_, ?_⟩
  · intro hnc
    simp [archiveCmd, hget, hnc]
  · simp [archiveIssue, List.any_eq_true, Bool.and_eq_true, beq_iff_eq]
  · intro hno
    have hrow : ∀ x ∈ db.issues, archiveRow id now x = x := by
      intro x hx
      rw [archiveRow, if_neg]
      intro hc
      exact hno ⟨x, hx, hc.1, hc.2⟩
    have hmap : db.issues.map (archiveRow id now) = db.issues := by
      rw [List.map_congr_left hrow]
      simp
    show ({ db with issues := db.issues.map (archiveRow id now) } : Database) = db
    rw [hmap]
  · intro harch
    have hget' : db.issues.find? (fun x => x.id == id) = some i := hget
    constructor
    · rw [unarchiveIssue]
      simp only [List.any_eq_true, Bool.and_eq_true, beq_iff_eq]
      exact ⟨i, hmem, hid, harch⟩
    · show (db.issues.map (unarchiveRow id now)).find? (fun x => x.id == id) = _
      rw [find_id_map _ _ (unarchiveRow_id id now) id, hget']
      show some (unarchiveRow id now i) = _
      rw [unarchiveRow, if_pos ⟨hid, harch⟩]

/-- Witness for C6 at the reachable state holding the archived issue 1. -/
theorem archive_only_closed_witness :
    (getIssue exDb3 1 = some exArchRow) ∧
    (exArchRow.status ≠ "closed" →
      archiveCmd exDb3 1 9 = Except.error "Can only archive closed issues") :=
  ⟨by decide,
   fun h => (archive_only_closed exDb3 1 9 exArchRow (by decide)).1 h⟩

/-- C9: `update_issue` changes only the supplied fields among title,
description, priority, always refreshes `updated_at`, and leaves id, status,
parent_id, created_at, closed_at and all other issues untouched. -/
theorem update_issue_frame (db : Database) (id : Int) (t d p : Option String)
    (now : Nat) (i : Issue) (hget : getIssue db id = some i) :
    (updateIssue db id t d p now).2 = true ∧
    getIssue ((updateIssue db id t d p now).1) id =
      some { i with
             title := match t with | some v => v | none => i.title,
             description := match d with | some v => some v | none => i.description,
             priority := match p with | some v => v | none => i.priority,
             updated_at := now } ∧
    (∀ j : Int, j ≠ id → getIssue ((updateIssue db id t d p now).1) j = getIssue db j) ∧
    (∀ x : Issue, (updateRow id t d p now x).id = x.id ∧
      (updateRow id t d p now x).status = x.status ∧
      (updateRow id t d p now x).parent_id = x.parent_id ∧
      (updateRow id t d p now x).created_at = x.created_at ∧
      (updateRow id t d p now x).closed_at = x.closed_at) ∧
    (∀ x : Issue, x.id = id → (updateRow id t d p now x).updated_at = now) := by
  have hmem : i ∈ db.issues := List.mem_of_find?_eq_some hget
  have hid : i.id = id := by
    have := List.find?_some hget
    rwa [beq_iff_eq] at this
  refine ⟨?_, ?_, ?_, ?_, ?_⟩
  · rw [updateIssue]
    simp only [List.any_eq_true, beq_iff_eq]
    exact ⟨i, hmem, hid⟩
  · have hget' : db.issues.find? (fun x => x.id == id) = some i := hget
    show (db.issues.map (updateRow id t d p now)).find? (fun x => x.id == id) = _
    rw [find_id_map _ _ (updateRow_id id t d p now) id, hget']
    show some (updateRow id t d p now i) = _
    unfold updateRow
    rw [if_pos hid]
  · intro j hj
    show (db.issues.map (updateRow id t d p now)).find? (fun x => x.id == j) =
      db.issues.find? (fun x => x.id == j)
    rw [find_id_map _ _ (updateRow_id id t d p now) j]
    cases h0 : db.issues.find? (fun x => x.id == j) with
    | none => rfl
    | some x0 =>
      have hx0 : x0.id = j := by
        have := List.find?_some h0
        rwa [beq_iff_eq] at this
      show some (updateRow id t d p now x0) = some x0
      unfold updateRow
      rw [if_neg (by rw [hx0]; exact hj)]
  · intro x
    unfold updateRow; split <;> simp
  · intro x hx
    unfold updateRow
    rw [if_pos hx]

/-- Witness for C9 on the concrete two-issue database, updating the title only. -/
theorem update_issue_frame_witness :
    (getIssue exOpen2 1 = some (mkIssue 1 "open")) ∧
    getIssue ((updateIssue exOpen2 1 (some "new") none none 7).1) 1 =
      some { mkIssue 1 "open" with title := "new", updated_at := 7 } :=
  ⟨by decide,
   (update_issue_frame exOpen2 1 (some "new") none none 7 (mkIssue 1 "open")
     (by decide)).2.1⟩

/-- C3 (amended): the per-row status transitions of the store operations are:
`close_issue` sets any matched issue to closed, `archive_issue` and
`archive_older_than` move only closed issues to archived, `unarchive_issue`
moves only archived issues to closed, `update_issue` never changes status —
but `reopen_issue` sets any matched issue to open regardless of its current
status, so an archived issue moves directly to open in one store operation. -/
theorem status_transition_machine (id : Int) (now cutoff : Nat)
    (t d p : Option String) (x : Issue) :
    ((closeRow id now x).status = "closed" ∨ closeRow id now x = x) ∧
    ((reopenRow id now x).status = "open" ∨ reopenRow id now x = x) ∧
    (archiveRow id now x = x ∨
      (x.status = "closed" ∧ (archiveRow id now x).status = "archived")) ∧
    (unarchiveRow id now x = x ∨
      (x.status = "archived" ∧ (unarchiveRow id now x).status = "closed")) ∧
    (archiveOlderRow cutoff now x = x ∨
      (x.status = "closed" ∧ (archiveOlderRow cutoff now x).status = "archived")) ∧
    (updateRow id t d p now x).status = x.status ∧
    (x.id = id → x.status = "archived" → (reopenRow id now x).status = "open") := by
  refine ⟨?_, ?_, ?_, ?_, ?_, ?_, ?_⟩
  · rw [closeRow]; split
    · exact Or.inl rfl
    · exact Or.inr rfl
  · rw [reopenRow]; split
    · exact Or.inl rfl
    · exact Or.inr rfl
  · rw [archiveRow]; split
    · rename_i h; exact Or.inr ⟨h.2, rfl⟩
    · exact Or.inl rfl
  · rw [unarchiveRow]; split
    · rename_i h; exact Or.inr ⟨h.2, rfl⟩
    · exact Or.inl rfl
  · rw [archiveOlderRow]; split
    · rename_i h
      rw [Bool.and_eq_true, beq_iff_eq] at h
      exact Or.inr ⟨h.1, rfl⟩
    · exact Or.inl rfl
  · unfold updateRow; split <;> rfl
  · intro h1 _
    rw [reopenRow, if_pos h1]

/-- C3 counterexample: `exDb3` is reachable (create, close, archive) and holds
issue 1 with status archived; the single store operation `reopen_issue` moves
it directly to status open. -/
theorem status_archived_to_open_counterexample :
    Reachable exDb3 ∧
    getIssue exDb3 1 = some exArchRow ∧ exArchRow.status = "archived" ∧
    (reopenIssue exDb3 1 3).2 = true ∧
    getIssue ((reopenIssue exDb3 1 3).1) 1 =
      some { exArchRow with status := "open", closed_at := none, updated_at := 3 } := by
  refine ⟨?_, by decide, by decide, by decide, by decide⟩
  have h1 : createIssueWithParent emptyDb "task" none "medium" none 0 =
      Except.ok (exDb1, 1) := rfl
  exact Reachable.archive (Reachable.close (Reachable.create Reachable.empty h1))

theorem addRelation_insert (db : Database) (u v : Int) (now : Nat) (h : u < v)
    (hu : hasIssue db u = true) (hv : hasIssue db v = true)
    (habs : ∀ r ∈ db.relations, ¬(r.issue_id_1 = u ∧ r.issue_id_2 = v)) :
    addRelation db u v now = Except.ok (insertRel db u v now, true) ∧
    addRelation db v u now = Except.ok (insertRel db u v now, true) := by
  have huv : ¬(u = v) := ne_of_lt h
  have hvu : ¬(v = u) := (ne_of_lt h).symm
  have hnlt : ¬(v < u) := lt_asymm h
  have hconf : db.relations.any (fun r => r.issue_id_1 == u && r.issue_id_2 == v) = false := by
    by_contra hc
    rw [Bool.not_eq_false, List.any_eq_true] at hc
    obtain ⟨r, hr, hpr⟩ := hc
    rw [Bool.and_eq_true, beq_iff_eq, beq_iff_eq] at hpr
    exact habs r hr hpr
  constructor
  · simp [addRelation, addRelationCanon, huv, h, hu, hv, hconf, insertRel]
  · simp [addRelation, addRelationCanon, hvu, hnlt, hu, hv, hconf, insertRel]

theorem addRelation_present (db : Database) (u v : Int) (now2 : Nat) (h : u < v)
    (hu : hasIssue db u = true) (hv : hasIssue db v = true)
    (hconf : db.relations.any (fun r => r.issue_id_1 == u && r.issue_id_2 == v) = true) :
    addRelation db u v now2 = Except.ok (db, false) ∧
    addRelation db v u now2 = Except.ok (db, false) := by
  have huv : ¬(u = v) := ne_of_lt h
  have hvu : ¬(v = u) := (ne_of_lt h).symm
  have hnlt : ¬(v < u) := lt_asymm h
  constructor
  · simp [addRelation, addRelationCanon, huv, h, hu, hv, hconf]
  · simp [addRelation, addRelationCanon, hvu, hnlt, hu, hv, hconf]

theorem mem_getRelated_of_canonRow (db : Database) (u v : Int) (now : Nat)
    (_h : u < v) (hu : hasIssue db u = true) (hv : hasIssue db v = true) :
    (∃ i ∈ getRelatedIssues (insertRel db u v now) u, i.id = v) ∧
    (∃ i ∈ getRelatedIssues (insertRel db u v now) v, i.id = u) := by
  obtain ⟨rv, hrv, hrvid⟩ : ∃ rv ∈ db.issues, rv.id = v := by
    simpa [hasIssue, List.any_eq_true, beq_iff_eq] using hv
  obtain ⟨ru, hru, hruid⟩ : ∃ ru ∈ db.issues, ru.id = u := by
    simpa [hasIssue, List.any_eq_true, beq_iff_eq] using hu
  constructor
  · refine ⟨rv, ?_, hrvid⟩
    rw [getRelatedIssues, List.mem_insertionSort, List.mem_filter]
    refine ⟨hrv, ?_⟩
    rw [Bool.or_eq_true]
    left
    rw [List.any_eq_true]
    exact ⟨{ issue_id_1 := u, issue_id_2 := v, created_at := now },
      by simp [insertRel], by simp [hrvid]⟩
  · refine ⟨ru, ?_, hruid⟩
    rw [getRelatedIssues, List.mem_insertionSort, List.mem_filter]
    refine ⟨hru, ?_⟩
    rw [Bool.or_eq_true]
    right
    rw [List.any_eq_true]
    exact ⟨{ issue_id_1 := u, issue_id_2 := v, created_at := now },
      by simp [insertRel], by simp [hruid]⟩

/-- C8: for distinct existing issues `a` and `b` with the edge absent,
`add_relation(a, b)` and `add_relation(b, a)` produce the same single stored
edge with the smaller id first; afterwards either call returns false without
changing the state, `get_related(a)` contains `b`, `get_related(b)` contains
`a`, and both lists are sorted by id ascending. -/
theorem add_relation_symmetric (db : Database) (a b : Int) (now now2 : Nat)
    (hne : a ≠ b) (ha : hasIssue db a = true) (hb : hasIssue db b = true)
    (habs : ∀ r ∈ db.relations, ¬(r.issue_id_1 = min a b ∧ r.issue_id_2 = max a b)) :
    ∃ db1 : Database,
      addRelation db a b now = Except.ok (db1, true) ∧
      addRelation db b a now = Except.ok (db1, true) ∧
      addRelation db1 a b now2 = Except.ok (db1, false) ∧
      addRelation db1 b a now2 = Except.ok (db1, false) ∧
      db1.relations = db.relations ++
        [{ issue_id_1 := min a b, issue_id_2 := max a b, created_at := now }] ∧
      (∃ i ∈ getRelatedIssues db1 a, i.id = b) ∧
      (∃ i ∈ getRelatedIssues db1 b, i.id = a) ∧
      List.Sorted idLe (getRelatedIssues db1 a) ∧
      List.Sorted idLe (getRelatedIssues db1 b) := by
  rcases hne.lt_or_lt with h | h
  · rw [min_eq_left h.le, max_eq_right h.le] at habs ⊢
    obtain ⟨h1, h2⟩ := addRelation_insert db a b now h ha hb habs
    have ha1 : hasIssue (insertRel db a b now) a = true := ha
    have hb1 : hasIssue (insertRel db a b now) b = true := hb
    have hconf1 : (insertRel db a b now).relations.any
        (fun r => r.issue_id_1 == a && r.issue_id_2 == b) = true := by
      simp [insertRel]
    obtain ⟨h3, h4⟩ := addRelation_present (insertRel db a b now) a b now2 h ha1 hb1 hconf1
    obtain ⟨h5, h6⟩ := mem_getRelated_of_canonRow db a b now h ha hb
    exact ⟨insertRel db a b now, h1, h2, h3, h4, rfl, h5, h6,
      List.sorted_insertionSort idLe _, List.sorted_insertionSort idLe _⟩
  · rw [min_eq_right h.le, max_eq_left h.le] at habs ⊢
    obtain ⟨h1, h2⟩ := addRelation_insert db b a now h hb ha habs
    have ha1 : hasIssue (insertRel db b a now) a = true := ha
    have hb1 : hasIssue (insertRel db b a now) b = true := hb
    have hconf1 : (insertRel db b a now).relations.any
        (fun r => r.issue_id_1 == b && r.issue_id_2 == a) = true := by
      simp [insertRel]
    obtain ⟨h3, h4⟩ := addRelation_present (insertRel db b a now) b a now2 h hb1 ha1 hconf1
    obtain ⟨h5, h6⟩ := mem_getRelated_of_canonRow db b a now h hb ha
    exact ⟨insertRel db b a now, h2, h1, h4, h3, rfl, h6, h5,
      List.sorted_insertionSort idLe _, List.sorted_insertionSort idLe _⟩

/-- Witness for C8 on the concrete two-issue database with no relations. -/
theorem add_relation_symmetric_witness :
    ((1 : Int) ≠ 2 ∧ hasIssue exOpen2 1 = true ∧ hasIssue exOpen2 2 = true ∧
      (∀ r ∈ exOpen2.relations, ¬(r.issue_id_1 = min 1 2 ∧ r.issue_id_2 = max 1 2))) ∧
    (∃ db1 : Database,
      addRelation exOpen2 1 2 5 = Except.ok (db1, true) ∧
      addRelation exOpen2 2 1 5 = Except.ok (db1, true) ∧
      addRelation db1 1 2 6 = Except.ok (db1, false) ∧
      addRelation db1 2 1 6 = Except.ok (db1, false) ∧
      db1.relations = exOpen2.relations ++
        [{ issue_id_1 := min 1 2, issue_id_2 := max 1 2, created_at := 5 }] ∧
      (∃ i ∈ getRelatedIssues db1 1, i.id = 2) ∧
      (∃ i ∈ getRelatedIssues db1 2, i.id = 1) ∧
      List.Sorted idLe (getRelatedIssues db1 1) ∧
      List.Sorted idLe (getRelatedIssues db1 2)) :=
  ⟨⟨by decide, by decide, by decide, by decide⟩,
   add_relation_symmetric exOpen2 1 2 5 6 (by decide) (by decide) (by decide) (by decide)⟩

theorem any_append_left {l₁ l₂ : List Issue} {p : Issue → Bool} (h : l₁.any p = true) :
    (l₁ ++ l₂).any p = true := by
  simp [List.any_append, h]

theorem edgesOK_mono (db db' : Database)
    (hdep : ∀ e ∈ db'.dependencies, e ∈ db.dependencies)
    (hrel : ∀ r ∈ db'.relations, r ∈ db.relations)
    (hms : ∀ m ∈ db'.milestone_issues, m ∈ db.milestone_issues)
    (hiss : ∀ i : Int, hasIssue db i = true → hasIssue db' i = true)
    (h : EdgesOK db) : EdgesOK db' := by
  refine ⟨?_, ?_, ?_⟩
  · intro e he
    obtain ⟨h1, h2⟩ := h.1 e (hdep e he)
    exact ⟨hiss _ h1, hiss _ h2⟩
  · intro r hr
    obtain ⟨h1, h2⟩ := h.2.1 r (hrel r hr)
    exact ⟨hiss _ h1, hiss _ h2⟩
  · intro m hm
    exact hiss _ (h.2.2 m (hms m hm))

theorem edgesOK_map_issues (db : Database) (f : Issue → Issue)
    (hf : ∀ x, (f x).id = x.id) (h : EdgesOK db) :
    EdgesOK { db with issues := db.issues.map f } := by
  refine edgesOK_mono db _ (fun e he => he) (fun r hr => hr) (fun m hm => hm) ?_ h
  intro i hi
  show (db.issues.map f).any (fun x => x.id == i) = true
  rw [any_id_map db.issues f hf i]
  exact hi

theorem hasIssue_filter_dead (db : Database) (dead : List Int) (p : Int)
    (hp : p ∉ dead) (h : hasIssue db p = true) :
    (db.issues.filter (fun x => !(decide (x.id ∈ dead)))).any (fun x => x.id == p) = true := by
  obtain ⟨x, hx, hxid⟩ : ∃ x ∈ db.issues, x.id = p := by
    simpa [hasIssue, List.any_eq_true, beq_iff_eq] using h
  rw [List.any_eq_true]
  refine ⟨x, List.mem_filter.2 ⟨hx, ?_⟩, by simp [hxid]⟩
  rw [Bool.not_eq_true', decide_eq_false_iff_not, hxid]
  exact hp

theorem mem_deadIter_of_mem (issues : List Issue) (n : Nat) (dead : List Int) (x : Int)
    (h : x ∈ dead) : x ∈ deadIter issues n dead := by
  induction n generalizing dead with
  | zero => exact h
  | succ n ih =>
    rw [deadIter]
    exact ih _ (List.mem_append_left _ h)

theorem edgesOK_addRelationCanon (db db' : Database) (u v : Int) (now : Nat) (r : Bool)
    (heq : addRelationCanon db u v now = Except.ok (db', r)) (ih : EdgesOK db) :
    EdgesOK db' := by
  rw [addRelationCanon] at heq
  split at heq
  · rename_i hcond
    rw [Bool.and_eq_true] at hcond
    split at heq
    · rw [Except.ok.injEq, Prod.mk.injEq] at heq
      obtain ⟨hdb, _⟩ := heq
      subst hdb
      exact ih
    · rw [Except.ok.injEq, Prod.mk.injEq] at heq
      obtain ⟨hdb, _⟩ := heq
      subst hdb
      refine ⟨fun e he => ih.1 e he, ?_, fun m hm => ih.2.2 m hm⟩
      intro rr hrr
      rcases List.mem_append.mp hrr with hold | hnew
      · exact ih.2.1 rr hold
      · rw [List.mem_singleton] at hnew
        subst hnew
        exact ⟨hcond.1, hcond.2⟩
  · exact absurd heq (by simp)

theorem edgesOK_of_reachable {db : Database} (h : Reachable db) : EdgesOK db := by
  induction h with
  | empty => exact ⟨by simp [emptyDb], by simp [emptyDb], by simp [emptyDb]⟩
  | create hr heq ih =>
    unfold createIssueWithParent at heq
    split at heq
    · rw [Except.ok.injEq, Prod.mk.injEq] at heq
      obtain ⟨hdb, _⟩ := heq
      subst hdb
      refine ⟨fun e he => ?_, fun r hrr => ?_, fun m hm => ?_⟩
      · obtain ⟨h1, h2⟩ := ih.1 e he
        exact ⟨any_append_left h1, any_append_left h2⟩
      · obtain ⟨h1, h2⟩ := ih.2.1 r hrr
        exact ⟨any_append_left h1, any_append_left h2⟩
      · exact any_append_left (ih.2.2 m hm)
    · exact absurd heq (by simp)
  | update hr ih => exact edgesOK_map_issues _ _ (updateRow_id _ _ _ _ _) ih
  | close hr ih => exact edgesOK_map_issues _ _ (closeRow_id _ _) ih
  | reopen hr ih => exact edgesOK_map_issues _ _ (reopenRow_id _ _) ih
  | archive hr ih => exact edgesOK_map_issues _ _ (archiveRow_id _ _) ih
  | unarchive hr ih => exact edgesOK_map_issues _ _ (unarchiveRow_id _ _) ih
  | archiveOlder hr ih => exact edgesOK_map_issues _ _ (archiveOlderRow_id _ _) ih
  | setParent hr heq ih =>
    unfold updateParent at heq
    split at heq
    · split at heq
      · rw [Except.ok.injEq, Prod.mk.injEq] at heq
        obtain ⟨hdb, _⟩ := heq
        subst hdb
        refine edgesOK_map_issues _ _ ?_ ih
        intro x
        dsimp only
        split <;> rfl
      · exact absurd heq (by simp)
    · rw [Except.ok.injEq, Prod.mk.injEq] at heq
      obtain ⟨hdb, _⟩ := heq
      subst hdb
      exact ih
  | remDep hr ih =>
    exact ⟨fun e he => ih.1 e (List.mem_of_mem_filter he),
           fun r hrr => ih.2.1 r hrr,
           fun m hm => ih.2.2 m hm⟩
  | addRel hr heq ih =>
    rw [addRelation] at heq
    split at heq
    · exact absurd heq (by simp)
    · split at heq
      · exact edgesOK_addRelationCanon _ _ _ _ _ _ heq ih
      · exact edgesOK_addRelationCanon _ _ _ _ _ _ heq ih
  | remRel hr ih =>
    exact ⟨fun e he => ih.1 e he,
           fun r hrr => ih.2.1 r (List.mem_of_mem_filter hrr),
           fun m hm => ih.2.2 m hm⟩
  | mkMilestone hr ih =>
    exact ⟨fun e he => ih.1 e he, fun r hrr => ih.2.1 r hrr, fun m hm => ih.2.2 m hm⟩
  | closeMs hr ih =>
    exact ⟨fun e he => ih.1 e he, fun r hrr => ih.2.1 r hrr, fun m hm => ih.2.2 m hm⟩
  | deleteMs hr ih =>
    exact ⟨fun e he => ih.1 e he, fun r hrr => ih.2.1 r hrr,
           fun m hm => ih.2.2 m (List.mem_of_mem_filter hm)⟩
  | remMsIssue hr ih =>
    exact ⟨fun e he => ih.1 e he, fun r hrr => ih.2.1 r hrr,
           fun m hm => ih.2.2 m (List.mem_of_mem_filter hm)⟩
  | delete hr ih =>
    rename_i db₀ id
    by_cases hex : hasIssue db₀ id = true
    · rw [deleteIssue, if_pos hex]
      refine ⟨?_, ?_, ?_⟩
      · intro e he
        obtain ⟨hmem, hp⟩ := List.mem_filter.mp he
        rw [Bool.and_eq_true, Bool.not_eq_true', Bool.not_eq_true',
          decide_eq_false_iff_not, decide_eq_false_iff_not] at hp
        obtain ⟨hbk, hbd⟩ := ih.1 e hmem
        exact ⟨hasIssue_filter_dead db₀ _ _ hp.1 hbk,
          hasIssue_filter_dead db₀ _ _ hp.2 hbd⟩
      · intro r hrr
        obtain ⟨hmem, hp⟩ := List.mem_filter.mp hrr
        rw [Bool.and_eq_true, Bool.not_eq_true', Bool.not_eq_true',
          decide_eq_false_iff_not, decide_eq_false_iff_not] at hp
        obtain ⟨h1, h2⟩ := ih.2.1 r hmem
        exact ⟨hasIssue_filter_dead db₀ _ _ hp.1 h1,
          hasIssue_filter_dead db₀ _ _ hp.2 h2⟩
      · intro m hm
        obtain ⟨hmem, hp⟩ := List.mem_filter.mp hm
        rw [Bool.not_eq_true', decide_eq_false_iff_not] at hp
        exact hasIssue_filter_dead db₀ _ _ hp (ih.2.2 m hmem)
    · rw [deleteIssue, if_neg hex]
      exact ih
  | addDep hr heq ih =>
    rw [addDependency] at heq
    split at heq
    · rename_i hcond
      rw [Bool.and_eq_true] at hcond
      split at heq
      · rw [Except.ok.injEq, Prod.mk.injEq] at heq
        obtain ⟨hdb, _⟩ := heq
        subst hdb
        exact ih
      · rw [Except.ok.injEq, Prod.mk.injEq] at heq
        obtain ⟨hdb, _⟩ := heq
        subst hdb
        refine ⟨?_, ?_, ?_⟩
        · intro e he
          rcases List.mem_append.mp he with hold | hnew
          · exact ih.1 e hold
          · rw [List.mem_singleton] at hnew
            subst hnew
            exact ⟨hcond.1, hcond.2⟩
        · intro r hrr
          exact ih.2.1 r hrr
        · intro m hm
          exact ih.2.2 m hm
    · exact absurd heq (by simp)
  | addMsIssue hr heq ih =>
    rw [addIssueToMilestone] at heq
    split at heq
    · rename_i hcond
      rw [Bool.and_eq_true] at hcond
      split at heq
      · rw [Except.ok.injEq, Prod.mk.injEq] at heq
        obtain ⟨hdb, _⟩ := heq
        subst hdb
        exact ih
      · rw [Except.ok.injEq, Prod.mk.injEq] at heq
        obtain ⟨hdb, _⟩ := heq
        subst hdb
        refine ⟨fun e he => ih.1 e he, fun r hrr => ih.2.1 r hrr, ?_⟩
        intro m hm
        rcases List.mem_append.mp hm with hold | hnew
        · exact ih.2.2 m hold
        · rw [List.mem_singleton] at hnew
          subst hnew
          exact hcond.2
    · exact absurd heq (by simp)

/-- C5: in every reachable database state no dependency or relation edge
references a nonexistent issue, and `delete_issue id` leaves no dependency
edge with `id` as blocker or blocked, no relation edge touching `id`, and no
milestone membership row for `id`. -/
theorem referential_integrity (db : Database) (id : Int) (h : Reachable db) :
    EdgesOK db ∧
    (∀ e ∈ ((deleteIssue db id).1).dependencies, e.blocker_id ≠ id ∧ e.blocked_id ≠ id) ∧
    (∀ r ∈ ((deleteIssue db id).1).relations, r.issue_id_1 ≠ id ∧ r.issue_id_2 ≠ id) ∧
    (∀ m ∈ ((deleteIssue db id).1).milestone_issues, m.issue_id ≠ id) := by
  have hok := edgesOK_of_reachable h
  have hid_not : ∀ p : Int, hasIssue db p = true → hasIssue db id = false → p ≠ id := by
    intro p hp hno hcontra
    rw [hcontra] at hp
    rw [hp] at hno
    exact Bool.noConfusion hno
  by_cases hex : hasIssue db id = true
  · have hdead : id ∈ deadIter db.issues db.issues.length [id] :=
      mem_deadIter_of_mem _ _ _ _ (by simp)
    refine ⟨hok, ?_, ?_, ?_⟩
    · intro e he
      rw [deleteIssue, if_pos hex] at he
      obtain ⟨_, hp⟩ := List.mem_filter.mp he
      rw [Bool.and_eq_true, Bool.not_eq_true', Bool.not_eq_true',
        decide_eq_false_iff_not, decide_eq_false_iff_not] at hp
      exact ⟨fun hc => hp.1 (hc ▸ hdead), fun hc => hp.2 (hc ▸ hdead)⟩
    · intro r hrr
      rw [deleteIssue, if_pos hex] at hrr
      obtain ⟨_, hp⟩ := List.mem_filter.mp hrr
      rw [Bool.and_eq_true, Bool.not_eq_true', Bool.not_eq_true',
        decide_eq_false_iff_not, decide_eq_false_iff_not] at hp
      exact ⟨fun hc => hp.1 (hc ▸ hdead), fun hc => hp.2 (hc ▸ hdead)⟩
    · intro m hm
      rw [deleteIssue, if_pos hex] at hm
      obtain ⟨_, hp⟩ := List.mem_filter.mp hm
      rw [Bool.not_eq_true', decide_eq_false_iff_not] at hp
      exact fun hc => hp (hc ▸ hdead)
  · have hno : hasIssue db id = false := by
      rw [Bool.not_eq_true] at hex
      exact hex
    refine ⟨hok, ?_, ?_, ?_⟩
    · intro e he
      rw [deleteIssue, if_neg hex] at he
      obtain ⟨h1, h2⟩ := hok.1 e he
      exact ⟨hid_not _ h1 hno, hid_not _ h2 hno⟩
    · intro r hrr
      rw [deleteIssue, if_neg hex] at hrr
      obtain ⟨h1, h2⟩ := hok.2.1 r hrr
      exact ⟨hid_not _ h1 hno, hid_not _ h2 hno⟩
    · intro m hm
      rw [deleteIssue, if_neg hex] at hm
      exact hid_not _ (hok.2.2 m hm) hno

/-- Witness for C5 at the reachable one-issue state, deleting issue 1. -/
theorem referential_integrity_witness :
    Reachable exDb1 ∧
    (EdgesOK exDb1 ∧
     (∀ e ∈ ((deleteIssue exDb1 1).1).dependencies, e.blocker_id ≠ 1 ∧ e.blocked_id ≠ 1) ∧
     (∀ r ∈ ((deleteIssue exDb1 1).1).relations, r.issue_id_1 ≠ 1 ∧ r.issue_id_2 ≠ 1) ∧
     (∀ m ∈ ((deleteIssue exDb1 1).1).milestone_issues, m.issue_id ≠ 1)) := by
  have h1 : createIssueWithParent emptyDb "task" none "medium" none 0 =
      Except.ok (exDb1, 1) := rfl
  have hr : Reachable exDb1 := Reachable.create Reachable.empty h1
  exact ⟨hr, referential_integrity exDb1 1 hr⟩

end Chainlink
